import Mathlib

/-!
Verification of the retrieval-and-grounding pipeline of the textbook RAG
backend.  The Python sources are shallowly embedded: text is `List Char`
(so that Python's `str.strip` / `str.lower` / slicing semantics can be
modelled exactly), scores are `ℚ`, fallible calls are `Except Unit`, and
stateful objects (LRU cache, conversation history) are explicit state
values.  Each embedded definition mirrors one function of the repository;
theorems at the end settle the frozen claims.
-/

namespace RagSpec

attribute [local semireducible] Rat.mul Rat.add Rat.sub Rat.inv

/-- Text is modelled as a list of characters, mirroring Python `str`. -/
abbrev Str := List Char

/-- Conversion from Lean string literals to the character-list model. -/
def str (s : String) : Str := s.data

/-- Python `str.lower()` (character-wise, length preserving). -/
def lowerStr (s : Str) : Str := s.map Char.toLower

/-- Python whitespace test used by `str.strip()` and `str.split()`. -/
def isWs (c : Char) : Bool :=
  c == ' ' || c == '\t' || c == '\n' || c == '\r' ||
    c == Char.ofNat 11 || c == Char.ofNat 12

/-- Python `str.strip()`: remove leading and trailing whitespace. -/
def stripCh (s : Str) : Str :=
  ((s.dropWhile isWs).reverse.dropWhile isWs).reverse

/-- Test whether `needle` is a leading segment of `hay`. -/
def isPre : Str → Str → Bool
  | [], _ => true
  | _ :: _, [] => false
  | a :: as, b :: bs => a == b && isPre as bs

/-- Python substring membership `needle in hay`. -/
def containsSub (needle : Str) : Str → Bool
  | [] => needle.isEmpty
  | c :: rest => isPre needle (c :: rest) || containsSub needle rest

/-- Worker for `countOccur`.  The fuel only serves structural
termination; every step consumes at least one character, so fuel equal
to the length of the scanned text never runs out. -/
def countOccurFuel (needle : Str) : ℕ → Str → ℕ
  | 0, _ => 0
  | _, [] => 0
  | fuel + 1, c :: rest =>
    if isPre needle (c :: rest) then
      1 + countOccurFuel needle fuel (rest.drop (needle.length - 1))
    else
      countOccurFuel needle fuel rest

/-- Python `hay.count(needle)`: non-overlapping occurrences, scanned
from the left (used only with non-empty needles, as in the source). -/
def countOccur (needle : Str) (hay : Str) : ℕ :=
  countOccurFuel needle hay.length hay

/-- Worker for `splitLines`, accumulating the current piece reversed. -/
def splitLinesGo (acc : Str) : Str → List Str
  | [] => [acc.reverse]
  | c :: rest =>
    if c == '\n' then acc.reverse :: splitLinesGo [] rest
    else splitLinesGo (c :: acc) rest

/-- Python `text.split` at the newline character. -/
def splitLines (s : Str) : List Str := splitLinesGo [] s

/-- Worker for `splitDotSpace`, accumulating the current piece reversed. -/
def splitDotSpaceGo (acc : Str) : Str → List Str
  | [] => [acc.reverse]
  | '.' :: ' ' :: rest => acc.reverse :: splitDotSpaceGo [] rest
  | c :: rest => splitDotSpaceGo (c :: acc) rest

/-- Python `text.split` at the two-character separator dot-space, with
the left-to-right non-overlapping scan Python uses. -/
def splitDotSpace (s : Str) : List Str := splitDotSpaceGo [] s

/-- Worker for `splitWs`. -/
def splitWsGo (acc : Str) : Str → List Str
  | [] => if acc.isEmpty then [] else [acc.reverse]
  | c :: rest =>
    if isWs c then
      if acc.isEmpty then splitWsGo [] rest
      else acc.reverse :: splitWsGo [] rest
    else splitWsGo (c :: acc) rest

/-- Python `str.split()` with no argument: runs of whitespace separate
words and no empty words are produced. -/
def splitWs (s : Str) : List Str := splitWsGo [] s

/-- Python slice `l[-k:]` (note that `l[-0:]` is the whole list). -/
def pySliceLast (k : ℕ) (l : List α) : List α :=
  if k = 0 then l else l.drop (l.length - k)

/-! ## Data model

Payloads stored in the vector index (`save_chunk_to_qdrant` in
`backend/main.py`) and read back by the retrieval tool.  Optional fields
model dict keys that may be absent; `retrieve_context` reads them with
`payload.get(key, default)`. -/

/-- A point payload as the retrieval tool reads it:
`payload.get("content", "")`, `payload.get("url", ...)`,
`payload.get("chapter", ...)`, `payload.get("section", ...)`,
`payload.get("heading_hierarchy", [])`. -/
structure Payload where
  content : Str
  url : Option Str
  chapter : Option Str
  sectionName : Option Str
  headingHierarchy : Option (List Str)
deriving DecidableEq

/-- A scored point returned by the similarity search (`id`, `score`,
`payload` as read by `getattr` in `retrieve_context`). -/
structure Point where
  id : Str
  score : ℚ
  payload : Payload
deriving DecidableEq

/-- `RetrievedContext` of `rag_agent/api/models/response.py` (the
`metadata` field keeps the raw payload, as in the source). -/
structure RetrievedContext where
  id : Str
  content : Str
  url : Str
  chapter : Str
  sectionName : Str
  headingHierarchy : List Str
  similarityScore : ℚ
  metadata : Payload
deriving DecidableEq

/-- `Citation` of `rag_agent/api/models/response.py`, restricted to the
fields `_extract_citations` fills (the generated `id`/`citation_date`
defaults are omitted from the model). -/
structure Citation where
  sourceUrl : Str
  chapter : Str
  sectionName : Str
  heading : Option Str
  pageReference : Option Str
  similarityScore : ℚ
  textExcerpt : Str
  sourceType : Str
  confidenceScore : ℚ
deriving DecidableEq

/-! ## Retrieval tool (`rag_agent/agents/retrieval_tool.py`) -/

/-- The `repetitive_patterns` list of `_calculate_quality_score`. -/
def repetitivePatterns : List Str :=
  [str "Complete Learning Path", str "comprehensive journey",
   str "ROS 2 fundamentals", str "advanced humanoid robotics"]

/-- The `technical_keywords` list of `_calculate_quality_score`
(verbatim, including the duplicated entry for physical ai). -/
def technicalKeywords : List Str :=
  [str "vision-language-action", str "humanoid control", str "robotics",
   str "ai", str "physical ai", str "vla models", str "embodied ai",
   str "robot control", str "machine learning", str "deep learning",
   str "neural networks", str "computer vision", str "natural language",
   str "action planning", str "physical ai", str "humanoid robotics",
   str "action models", str "language models"]

/-- The `technical_terms` list of `_calculate_quality_score`. -/
def technicalTerms : List Str :=
  [str "algorithm", str "function", str "method", str "process",
   str "system", str "model", str "framework", str "architecture",
   str "protocol", str "procedure", str "technique", str "approach",
   str "theory", str "principle", str "concept", str "definition",
   str "equation", str "formula", str "implementation"]

/-- `keyword_matches`: how many entries of `technical_keywords` occur in
the lowered content (a sum over the list, so the duplicated entry can
count twice, exactly as in the source). -/
def keywordMatches (contentLower : Str) : ℕ :=
  (technicalKeywords.map
    (fun kw => if containsSub kw contentLower then 1 else 0)).sum

/-- `technical_term_matches` of `_calculate_quality_score`. -/
def termMatches (contentLower : Str) : ℕ :=
  (technicalTerms.map
    (fun t => if containsSub t contentLower then 1 else 0)).sum

/-- `QdrantRetrievalTool._calculate_quality_score`, step by step:
short-content penalty, one-shot boilerplate penalty, keyword boost
(clamped), technical-term boost (clamped), floor for keyword content,
final clamp into the unit interval. -/
def calculateQualityScore (content : Str) (baseSimilarityScore : ℚ) : ℚ :=
  let q0 := baseSimilarityScore
  let q1 := if (stripCh content).length < 50 then q0 * (7 / 10) else q0
  let contentLower := lowerStr content
  let q2 :=
    if repetitivePatterns.any
        (fun p => 1 < countOccur (lowerStr p) contentLower) then
      q1 * (1 / 2)
    else q1
  let k := keywordMatches contentLower
  let q3 := if 0 < k then min 1 (q2 * (1 + (k : ℚ) * (1 / 5))) else q2
  let t := termMatches contentLower
  let q4 := if 0 < t then min 1 (q3 * (1 + (t : ℚ) * (1 / 10))) else q3
  let q5 := if 0 < k ∧ q4 < 3 / 10 then max q4 (3 / 10) else q4
  max 0 (min 1 q5)

/-- The quality-score formula exactly as the specification words it
(penalties and boosts multiplicatively combined, then clamped to at
most 1.0, then floored at 0.3 for keyword content).  This definition
follows the spec sentence, for comparison with
`calculateQualityScore`. -/
def specQualityScore (content : Str) (rawSimilarity : ℚ) : ℚ :=
  let contentLower := lowerStr content
  let k := keywordMatches contentLower
  let t := termMatches contentLower
  let product := rawSimilarity *
    (if (stripCh content).length < 50 then 7 / 10 else 1) *
    (if repetitivePatterns.any
        (fun p => 1 < countOccur (lowerStr p) contentLower) then 1 / 2
     else 1) *
    (1 + (k : ℚ) * (1 / 5)) * (1 + (t : ℚ) * (1 / 10))
  let clamped := min 1 product
  if 0 < k ∧ clamped < 3 / 10 then 3 / 10 else clamped

/-! ### URL validation (`RetrievedContext._is_valid_url`, response.py)

The pydantic model validates `url` against the regex
matching scheme, then domain or localhost or dotted quad, an optional
port and an optional path, compiled with IGNORECASE and applied with
`re.search` (the pattern is anchored at both ends, so this is a full
match up to the end-of-string behaviour of the dollar anchor, which
also accepts a single trailing newline).  The nondeterministic pieces
(label repetition, TLD length, octet and port digits) are modelled by
remainder lists, so the backtracking semantics is preserved. -/

/-- ASCII letter test; the regex classes are applied case-insensitively,
so both cases are accepted. -/
def isUrlAlpha (c : Char) : Bool := 'a' ≤ c.toLower && c.toLower ≤ 'z'

/-- ASCII digit test (the regex digit class, restricted to ASCII as in
the URLs the pipeline handles). -/
def isDigitCh (c : Char) : Bool := '0' ≤ c && c ≤ '9'

/-- The alphanumeric class of the domain-label pattern. -/
def isAlnumCh (c : Char) : Bool := isUrlAlpha c || isDigitCh c

/-- The alphanumeric-or-hyphen class of the domain-label interior. -/
def isAlnumHyphenCh (c : Char) : Bool := isAlnumCh c || c == '-'

/-- First character of the run is alphanumeric. -/
def headAlnum (l : Str) : Bool :=
  match l with
  | c :: _ => isAlnumCh c
  | [] => false

/-- Last character of the run is alphanumeric. -/
def lastAlnum (l : Str) : Bool :=
  match l.getLast? with
  | some c => isAlnumCh c
  | none => false

/-- One domain label followed by a dot.  A label is 1 to 63
alphanumeric-or-hyphen characters beginning and ending alphanumeric;
because the following dot is outside the character class, the match is
deterministic: the label is exactly the maximal class run. -/
def labelRemainder (s : Str) : Option Str :=
  let run := s.takeWhile isAlnumHyphenCh
  if run ≠ [] ∧ run.length ≤ 63 ∧ headAlnum run = true ∧
      lastAlnum run = true then
    match s.drop run.length with
    | '.' :: rest => some rest
    | _ => none
  else none

/-- Worker for `domainLabels`; the fuel (the scanned length) only
serves structural termination, every label consumes characters. -/
def domainLabelsFuel : ℕ → Str → List Str
  | 0, _ => []
  | fuel + 1, s =>
    match labelRemainder s with
    | none => []
    | some r => r :: domainLabelsFuel fuel r

/-- All remainders after one or more dot-terminated domain labels. -/
def domainLabels (s : Str) : List Str := domainLabelsFuel s.length s

/-- All remainders after the top-level-domain part: two to six letters
and an optional trailing dot. -/
def tldRemainders (s : Str) : List Str :=
  let letterRun := (s.takeWhile isUrlAlpha).length
  let afterTld := (List.range' 2 5).filterMap
    (fun n => if n ≤ letterRun then some (s.drop n) else none)
  afterTld ++ afterTld.filterMap
    (fun r =>
      match r with
      | '.' :: rest => some rest
      | _ => none)

/-- All remainders after the literal localhost alternative
(case-insensitive). -/
def localhostRemainders (s : Str) : List Str :=
  if lowerStr (s.take 9) = str "localhost" then [s.drop 9] else []

/-- All remainders after one to three digits. -/
def octetRemainders (s : Str) : List Str :=
  let d := (s.takeWhile isDigitCh).length
  (List.range' 1 3).filterMap
    (fun n => if n ≤ d then some (s.drop n) else none)

/-- Remainder after a literal dot. -/
def expectDotRemainders (s : Str) : List Str :=
  match s with
  | '.' :: rest => [rest]
  | _ => []

/-- All remainders after the dotted-quad alternative. -/
def ipRemainders (s : Str) : List Str :=
  ((((((octetRemainders s).bind expectDotRemainders).bind
    octetRemainders).bind expectDotRemainders).bind
    octetRemainders).bind expectDotRemainders).bind octetRemainders

/-- All remainders after the host alternation: domain-plus-TLD,
localhost, or dotted quad. -/
def hostRemainders (s : Str) : List Str :=
  ((domainLabels s).bind tldRemainders) ++ localhostRemainders s ++
    ipRemainders s

/-- All remainders after the optional colon-digits port group. -/
def portRemainders (s : Str) : List Str :=
  s :: (match s with
    | ':' :: rest =>
      (List.range (rest.takeWhile isDigitCh).length).map
        (fun i => rest.drop (i + 1))
    | _ => [])

/-- Python's dollar anchor without MULTILINE: end of string, or just
before one trailing newline. -/
def atLineEnd (s : Str) : Bool := s = [] || s = ['\n']

/-- The trailing group of the URL pattern: an optional single slash, or
a slash or question mark followed by one or more non-whitespace
characters, then the dollar anchor. -/
def tailMatches (s : Str) : Bool :=
  atLineEnd s ||
  (match s with
   | '/' :: rest => atLineEnd rest
   | _ => false) ||
  (match s with
   | c :: rest =>
     (c == '/' || c == '?') &&
       (let core :=
          match rest.getLast? with
          | some lc => if lc = '\n' then rest.dropLast else rest
          | none => rest
        ¬core.isEmpty && core.all (fun ch => ¬isWs ch))
   | [] => false)

/-- `RetrievedContext._is_valid_url` of response.py: scheme, host,
optional port, optional path. -/
def isValidUrl (url : Str) : Bool :=
  let afterScheme : Option Str :=
    if lowerStr (url.take 8) = str "https://" then some (url.drop 8)
    else if lowerStr (url.take 7) = str "http://" then some (url.drop 7)
    else none
  match afterScheme with
  | none => false
  | some s => ((hostRemainders s).bind portRemainders).any tailMatches

/-- The first `url` read of the dedup step:
`payload.get("url", "")`. -/
def dedupUrl (p : Payload) : Str := p.url.getD []

/-- The dedup key of a content string:
`content.strip()[:100].lower()`. -/
def contentKey (content : Str) : Str :=
  lowerStr ((stripCh content).take 100)

/-- Field defaulting for the constructed context: the second `url` read,
`payload.get("url", "https://example.com")`. -/
def ctxUrl (p : Payload) : Str := p.url.getD (str "https://example.com")

/-- `payload.get("chapter", "Unknown Chapter") or "Unknown Chapter"`:
a missing or empty value falls back to the default. -/
def ctxChapter (p : Payload) : Str :=
  let v := p.chapter.getD (str "Unknown Chapter")
  if v = [] then str "Unknown Chapter" else v

/-- `payload.get("section", "Unknown Section") or "Unknown Section"`. -/
def ctxSection (p : Payload) : Str :=
  let v := p.sectionName.getD (str "Unknown Section")
  if v = [] then str "Unknown Section" else v

/-- Build the `RetrievedContext` for an accepted point, mirroring the
pydantic constructor call in `retrieve_context`: the model's field
validators (response.py) require non-blank content, a url matching
`_is_valid_url`, non-blank chapter and section (both returned
stripped), and a similarity score inside the unit interval; a failing
validator raises, and the loop's per-point `except` catches that. -/
def mkContext (p : Point) : Except Unit RetrievedContext :=
  let content := p.payload.content
  let url := ctxUrl p.payload
  let chapter := ctxChapter p.payload
  let sectionName := ctxSection p.payload
  let score := calculateQualityScore content p.score
  if stripCh content = [] then .error ()
  else if ¬isValidUrl url then .error ()
  else if stripCh chapter = [] then .error ()
  else if stripCh sectionName = [] then .error ()
  else if ¬(0 ≤ score ∧ score ≤ 1) then .error ()
  else .ok
    { id := p.id
      content := content
      url := url
      chapter := stripCh chapter
      sectionName := stripCh sectionName
      headingHierarchy := p.payload.headingHierarchy.getD []
      similarityScore := score
      metadata := p.payload }

/-- The conversion loop of `retrieve_context` (lines 51-102): skip
empty content, skip keys or urls already seen, record the key (and the
url if non-empty), then construct the pydantic context — a validation
failure raises and the per-point `except` skips the point, its dedup
key already recorded — otherwise append, stopping once `top_k`
contexts are collected. -/
def dedupLoop (topK : ℕ) :
    List Point → List Str → List Str → List RetrievedContext →
    List RetrievedContext
  | [], _, _, acc => acc
  | p :: rest, seenContent, seenUrls, acc =>
    let content := p.payload.content
    if stripCh content = [] then
      dedupLoop topK rest seenContent seenUrls acc
    else
      let key := contentKey content
      let url := dedupUrl p.payload
      if key ∈ seenContent ∨ url ∈ seenUrls then
        dedupLoop topK rest seenContent seenUrls acc
      else
        let seenContent' := key :: seenContent
        let seenUrls' := if url ≠ [] then url :: seenUrls else seenUrls
        match mkContext p with
        | .error _ => dedupLoop topK rest seenContent' seenUrls' acc
        | .ok ctx =>
          let acc' := acc ++ [ctx]
          if topK ≤ acc'.length then acc'
          else dedupLoop topK rest seenContent' seenUrls' acc'

/-- Final step of `retrieve_context`: stable sort by quality-adjusted
score, descending (Python's stable `list.sort` with `reverse=True`). -/
def sortByScoreDesc (l : List RetrievedContext) : List RetrievedContext :=
  l.insertionSort (fun a b => b.similarityScore ≤ a.similarityScore)

/-- Deduplicate, rescore, cut to `top_k` and sort: the whole result
construction of `retrieve_context` applied to the search results. -/
def processResults (points : List Point) (topK : ℕ) :
    List RetrievedContext :=
  sortByScoreDesc (dedupLoop topK points [] [] [])

/-- `QdrantRetrievalTool._search_qdrant`: a raising search call is
caught and degraded to the empty result list. -/
def searchQdrant (raw : Except Unit (List Point)) : List Point :=
  match raw with
  | .ok points => points
  | .error _ => []

/-- `QdrantRetrievalTool.retrieve_context`.  The embedding call may
raise (`embedRes`); the search backend is a function of the embedding
whose raising is modelled inside `searchQdrant`.  The outer
`try/except` maps any raise to the empty list. -/
def retrieveContext (embedRes : Except Unit (List ℚ))
    (rawSearch : List ℚ → Except Unit (List Point)) (topK : ℕ) :
    List RetrievedContext :=
  match embedRes with
  | .error _ => []
  | .ok emb => processResults (searchQdrant (rawSearch emb)) topK

/-- The `expansion_terms` table of `_expand_query` (insertion order). -/
def expansionTerms : List (Str × List Str) :=
  [(str "physical ai",
    [str "embodied ai", str "robotics", str "real-world ai",
     str "robot intelligence", str "physical artificial intelligence"]),
   (str "humanoid robotics",
    [str "humanoid robot", str "bipedal robot", str "human-like robot",
     str "walking robot", str "humanoid robot control"]),
   (str "vision-language-action",
    [str "vla", str "multimodal models",
     str "vision language action models", str "vlm", str "multimodal ai"]),
   (str "humanoid control",
    [str "locomotion", str "balance control", str "gait control",
     str "bipedal control", str "humanoid locomotion",
     str "walking control"]),
   (str "robotics",
    [str "robot", str "automation", str "control systems",
     str "mechatronics", str "robot control"]),
   (str "ai",
    [str "artificial intelligence", str "machine learning",
     str "neural networks", str "deep learning"]),
   (str "vla models",
    [str "vision language action models", str "multimodal models",
     str "vision-language-action", str "vlm"]),
   (str "embodied ai",
    [str "embodied artificial intelligence", str "physical ai",
     str "robotics", str "embodied intelligence"])]

/-- The `technical_expansions` table of `_expand_query`. -/
def technicalExpansions : List (Str × List Str) :=
  [(str "control",
    [str "control system", str "controller", str "control theory",
     str "feedback control"]),
   (str "learning",
    [str "machine learning", str "deep learning",
     str "reinforcement learning", str "supervised learning"]),
   (str "model",
    [str "models", str "neural network", str "algorithm",
     str "architecture"]),
   (str "vision",
    [str "computer vision", str "visual perception",
     str "image processing"]),
   (str "language",
    [str "natural language processing", str "nlp",
     str "text processing"]),
   (str "action",
    [str "action planning", str "motion planning", str "robot action",
     str "manipulation"])]

/-- `QdrantRetrievalTool._expand_query`: append the matching static
synonym lists (space-joined) to the raw query, both tables in order. -/
def expandQuery (query : Str) : Str :=
  let queryLower := lowerStr query
  let afterConcepts := expansionTerms.foldl
    (fun acc entry =>
      if containsSub entry.1 queryLower then
        acc ++ str " " ++ List.intercalate (str " ") entry.2
      else acc)
    query
  technicalExpansions.foldl
    (fun acc entry =>
      if containsSub entry.1 queryLower then
        acc ++ str " " ++ List.intercalate (str " ") entry.2
      else acc)
    afterConcepts

/-- The fixed trigger substrings of `retrieve_context_with_expansion`
(`has_technical_terms`). -/
def expansionTriggers : List Str :=
  [str "vision-language-action", str "humanoid control", str "vla",
   str "robotics", str "physical ai", str "embodied ai",
   str "machine learning", str "deep learning", str "neural networks",
   str "computer vision", str "nlp"]

/-- `has_technical_terms`: the lowered query contains one of the fixed
trigger substrings. -/
def hasTechnicalTerms (query : Str) : Bool :=
  expansionTriggers.any (fun t => containsSub t (lowerStr query))

/-- `avg_similarity` of `retrieve_context_with_expansion`:
`sum(scores) / max(len(results), 1)`. -/
def avgSimilarity (points : List Point) : ℚ :=
  (points.map (fun p => p.score)).sum / (max points.length 1 : ℕ)

/-- The conversion loop inside the expansion `try` block of
`retrieve_context_with_expansion` (lines 287-335); the source repeats
the `retrieve_context` loop verbatim, and so does this definition. -/
def dedupLoopExpansion (topK : ℕ) :
    List Point → List Str → List Str → List RetrievedContext →
    List RetrievedContext
  | [], _, _, acc => acc
  | p :: rest, seenContent, seenUrls, acc =>
    let content := p.payload.content
    if stripCh content = [] then
      dedupLoopExpansion topK rest seenContent seenUrls acc
    else
      let key := contentKey content
      let url := dedupUrl p.payload
      if key ∈ seenContent ∨ url ∈ seenUrls then
        dedupLoopExpansion topK rest seenContent seenUrls acc
      else
        let seenContent' := key :: seenContent
        let seenUrls' := if url ≠ [] then url :: seenUrls else seenUrls
        match mkContext p with
        | .error _ => dedupLoopExpansion topK rest seenContent' seenUrls' acc
        | .ok ctx =>
          let acc' := acc ++ [ctx]
          if topK ≤ acc'.length then acc'
          else dedupLoopExpansion topK rest seenContent' seenUrls' acc'

/-- The conversion loop of the fallback path of
`retrieve_context_with_expansion` (lines 354-402), again a verbatim
repetition in the source. -/
def dedupLoopFallback (topK : ℕ) :
    List Point → List Str → List Str → List RetrievedContext →
    List RetrievedContext
  | [], _, _, acc => acc
  | p :: rest, seenContent, seenUrls, acc =>
    let content := p.payload.content
    if stripCh content = [] then
      dedupLoopFallback topK rest seenContent seenUrls acc
    else
      let key := contentKey content
      let url := dedupUrl p.payload
      if key ∈ seenContent ∨ url ∈ seenUrls then
        dedupLoopFallback topK rest seenContent seenUrls acc
      else
        let seenContent' := key :: seenContent
        let seenUrls' := if url ≠ [] then url :: seenUrls else seenUrls
        match mkContext p with
        | .error _ => dedupLoopFallback topK rest seenContent' seenUrls' acc
        | .ok ctx =>
          let acc' := acc ++ [ctx]
          if topK ≤ acc'.length then acc'
          else dedupLoopFallback topK rest seenContent' seenUrls' acc'

/-- `QdrantRetrievalTool.retrieve_context_with_expansion`.
`origEmbedRes` models `_get_embedding(query)` (a raise hits the outer
`except` and yields `[]`); `origRawSearch` the first `_search_qdrant`
call; `expandCall` models embed-plus-search for the expanded query,
where an `error` is the raise caught by the inner `except` that falls
back to the original results. -/
def retrieveContextWithExpansion (query : Str) (topK : ℕ)
    (origEmbedRes : Except Unit (List ℚ))
    (origRawSearch : List ℚ → Except Unit (List Point))
    (expandCall : Str → Except Unit (List Point)) :
    List RetrievedContext :=
  match origEmbedRes with
  | .error _ => []
  | .ok emb =>
    let originalResults := searchQdrant (origRawSearch emb)
    if avgSimilarity originalResults < 1 / 2 ∨ hasTechnicalTerms query then
      match expandCall (expandQuery query) with
      | .ok expandedResults =>
        sortByScoreDesc
          (dedupLoopExpansion topK (originalResults ++ expandedResults)
            [] [] [])
      | .error _ =>
        sortByScoreDesc (dedupLoopFallback topK originalResults [] [] [])
    else
      sortByScoreDesc (dedupLoopFallback topK originalResults [] [] [])

/-! ## Textbook agent (`rag_agent/agents/textbook_agent.py`) -/

/-- Line filter of `_remove_repetitive_content`: keep a line when its
stripped form is non-empty and not seen before (the original line, not
the stripped one, is kept). -/
def dedupLinesGo (seenLines : List Str) :
    List Str → List Str
  | [] => []
  | line :: rest =>
    let lineStripped := stripCh line
    if lineStripped ≠ [] ∧ lineStripped ∉ seenLines then
      line :: dedupLinesGo (lineStripped :: seenLines) rest
    else
      dedupLinesGo seenLines rest

/-- `TextbookAgent._remove_repetitive_content`: split into lines, drop
blank lines and lines whose stripped form already occurred, and join
the survivors with newlines. -/
def removeRepetitiveContent (text : Str) : Str :=
  if text = [] then text
  else List.intercalate (str "\n") (dedupLinesGo [] (splitLines text))

/-- One sentence test of `validate_answer_grounding`: the stripped,
lowered span is longer than 10 characters and occurs verbatim in the
lowered joined context, or one of its first 5 words does. -/
def sentenceSupported (contextTextLower : Str) (sentence : Str) : Bool :=
  let sentenceClean := lowerStr (stripCh sentence)
  10 < sentenceClean.length &&
    (containsSub sentenceClean contextTextLower ||
      ((splitWs sentenceClean).take 5).any
        (fun word => containsSub word contextTextLower))

/-- `TextbookAgent.validate_answer_grounding` before the
`handle_exceptions` decorator: `error` is the `ZeroDivisionError` raised
when no span passes the length filter. -/
def validateAnswerGroundingRaw (answer : Str)
    (retrievedContexts : List RetrievedContext) : Except Unit Bool :=
  let contextText :=
    List.intercalate (str " ") (retrievedContexts.map (fun c => c.content))
  let contextTextLower := lowerStr contextText
  let deduplicatedAnswer := removeRepetitiveContent answer
  let answerSentences := splitDotSpace deduplicatedAnswer
  let supportedSentences :=
    (answerSentences.filter (sentenceSupported contextTextLower)).length
  if 0 < answerSentences.length then
    let checked :=
      (answerSentences.filter (fun s => 10 < (stripCh s).length)).length
    if checked = 0 then .error ()
    else .ok (decide ((3 : ℚ) / 5 ≤ (supportedSentences : ℚ) / checked))
  else .ok false

/-- `validate_answer_grounding` as callers see it: the decorator
`handle_exceptions(fallback_return=False, reraise=False)` maps a raise
to `False`. -/
def validateAnswerGrounding (answer : Str)
    (retrievedContexts : List RetrievedContext) : Bool :=
  match validateAnswerGroundingRaw answer retrievedContexts with
  | .ok b => b
  | .error _ => false

/-- The repetitiveness test of `_filter_repetitive_contexts`: a known
boilerplate phrase occurs more than once, or more than 70 percent of
the whitespace-split words are repetitions. -/
def isRepetitiveContext (content : Str) : Bool :=
  let contentLower := lowerStr content
  if repetitivePatterns.any
      (fun p => 1 < countOccur (lowerStr p) contentLower) then
    true
  else
    let words := splitWs contentLower
    if words ≠ [] then
      decide ((7 : ℚ) / 10 <
        1 - ((words.dedup.length : ℚ) / (words.length : ℚ)))
    else false

/-- `TextbookAgent._filter_repetitive_contexts`: drop the contexts whose
content is flagged repetitive. -/
def filterRepetitiveContexts (contexts : List RetrievedContext) :
    List RetrievedContext :=
  contexts.filter (fun ctx => ¬isRepetitiveContext ctx.content)

/-- The excerpt of `_extract_citations`:
`content[:200] + "..."` when the content is longer than 200 chars. -/
def citationExcerpt (content : Str) : Str :=
  if 200 < content.length then content.take 200 ++ str "..."
  else content

/-- `TextbookAgent._extract_citations`: the loop building one `Citation`
per retrieved context. -/
def extractCitations : List RetrievedContext → List Citation
  | [] => []
  | ctx :: rest =>
    { sourceUrl := ctx.url
      chapter := ctx.chapter
      sectionName := ctx.sectionName
      heading := ctx.headingHierarchy.getLast?
      pageReference := none
      similarityScore := ctx.similarityScore
      textExcerpt := citationExcerpt ctx.content
      sourceType := str "textbook"
      confidenceScore := ctx.similarityScore } :: extractCitations rest

/-! ## Chunker and ingestion (`backend/main.py`) -/

/-- Generic single-character splitter (Python `s.split(c)`). -/
def splitOnCharGo (sep : Char) (acc : Str) : Str → List Str
  | [] => [acc.reverse]
  | c :: rest =>
    if c == sep then acc.reverse :: splitOnCharGo sep [] rest
    else splitOnCharGo sep (c :: acc) rest

/-- Python `s.split(c)` for a single-character separator. -/
def splitOnChar (sep : Char) (s : Str) : List Str := splitOnCharGo sep [] s

/-- Everything after the first occurrence of `needle` (empty when there
is none); helper for the URL-path model. -/
def afterFirst (needle : Str) : Str → Str
  | [] => []
  | c :: rest =>
    if isPre needle (c :: rest) then (c :: rest).drop needle.length
    else afterFirst needle rest

/-- Model of `urlparse(url).path` for the URL shapes the pipeline
handles: with a scheme marker the path starts at the first slash after
the authority; without one the whole string is the path (query and
fragment syntax is not used by the corpus URLs). -/
def urlPath (url : Str) : Str :=
  if containsSub (str "://") url then
    (afterFirst (str "://") url).dropWhile (fun c => ¬(c = '/'))
  else url

/-- Chunk metadata as built by `chunk_text` (`url`, `chapter`,
`section`, `heading_hierarchy`). -/
structure ChunkMeta where
  url : Str
  chapter : Str
  sectionName : Str
  headingHierarchy : List Str
deriving DecidableEq

/-- A chunk emitted by `chunk_text`: content plus a copy of the current
metadata (and nothing else). -/
structure Chunk where
  content : Str
  metadata : ChunkMeta
deriving DecidableEq

/-- The chapter `chunk_text` extracts from the URL path before the line
loop.  The source's fallback for an empty last part is unreachable
because empty parts were just filtered out, so the last part is taken
directly. -/
def initialChapter (url : Str) : Str :=
  let pathParts := (splitOnChar '/' (urlPath url)).filter (fun p => p ≠ [])
  match pathParts.getLast? with
  | none => []
  | some lastPart => lastPart

/-- Metadata update of `chunk_text` for a heading line of the given
level (`line.count` of the hash mark) and heading text. -/
def updateHeading (meta : ChunkMeta) (level : ℕ) (headingText : Str) :
    ChunkMeta :=
  if level = 1 then
    { meta with chapter := headingText, headingHierarchy := [headingText] }
  else if level = 2 then
    { meta with
      sectionName := headingText
      headingHierarchy :=
        match meta.headingHierarchy with
        | h0 :: _ => [h0, headingText]
        | [] => [headingText] }
  else if level = 3 then
    { meta with
      headingHierarchy :=
        match meta.headingHierarchy with
        | h0 :: h1 :: _ => [h0, h1, headingText]
        | _ => [headingText, headingText] }
  else meta

/-- The line loop of `chunk_text`: blank lines are skipped, a heading
line flushes the buffer and updates the metadata, other lines
accumulate until the 800-character target. The trailing buffer is
flushed at the end. -/
def chunkLoop :
    List Str → Str → ChunkMeta → List Chunk → List Chunk
  | [], currentChunk, meta, chunks =>
    if stripCh currentChunk ≠ [] then
      chunks ++ [⟨stripCh currentChunk, meta⟩]
    else chunks
  | rawLine :: rest, currentChunk, meta, chunks =>
    let line := stripCh rawLine
    if line = [] then chunkLoop rest currentChunk meta chunks
    else if isPre (str "#") line then
      let chunks' :=
        if stripCh currentChunk ≠ [] then
          chunks ++ [⟨stripCh currentChunk, meta⟩]
        else chunks
      let level := countOccur (str "#") line
      let headingText := stripCh (line.dropWhile (fun c => c = '#'))
      chunkLoop rest (line ++ str "\n") (updateHeading meta level headingText)
        chunks'
    else if currentChunk.length + line.length < 800 then
      chunkLoop rest (currentChunk ++ line ++ str "\n") meta chunks
    else
      let chunks' :=
        if stripCh currentChunk ≠ [] then
          chunks ++ [⟨stripCh currentChunk, meta⟩]
        else chunks
      chunkLoop rest (line ++ str "\n") meta chunks'

/-- The sliding-overlap pass of `chunk_text`.  The source mutates the
chunk dicts in place, so each chunk is prefixed with the last two lines
of its predecessor's already-overlapped content; the fold therefore
carries the updated predecessor. -/
def overlapGo (prev : Chunk) : List Chunk → List Chunk
  | [] => []
  | c :: rest =>
    let prevLines := pySliceLast 2 (splitLines prev.content)
    if prevLines ≠ [] then
      let overlapText :=
        List.intercalate (str " ") prevLines ++ str " [CONTINUED] " ++
          c.content
      let c' := { c with content := overlapText }
      c' :: overlapGo c' rest
    else
      c :: overlapGo c rest

/-- Overlap is added only when there is more than one chunk, and never
to the first chunk. -/
def addOverlap (chunks : List Chunk) : List Chunk :=
  if 1 < chunks.length then
    match chunks with
    | [] => []
    | c0 :: rest => c0 :: overlapGo c0 rest
  else chunks

/-- `chunk_text(text, url)` of `backend/main.py`. -/
def chunkText (text url : Str) : List Chunk :=
  let lines := splitLines text
  let meta0 : ChunkMeta := ⟨url, initialChapter url, [], []⟩
  addOverlap (chunkLoop lines [] meta0 [])

/-- A value stored in the vector-store payload. -/
inductive PayloadValue where
  | vStr (s : Str)
  | vStrList (l : List Str)
deriving DecidableEq

/-- The payload dict `save_chunk_to_qdrant` upserts for one chunk:
exactly these six keys, in this order. -/
def saveChunkPayload (content : Str) (metadata : ChunkMeta)
    (recordId : Str) : List (Str × PayloadValue) :=
  [(str "content", .vStr content),
   (str "url", .vStr metadata.url),
   (str "chapter", .vStr metadata.chapter),
   (str "section", .vStr metadata.sectionName),
   (str "heading_hierarchy", .vStrList metadata.headingHierarchy),
   (str "text_chunk_id", .vStr recordId)]

/-- Dict lookup on the payload model. -/
def payloadLookup (key : Str) :
    List (Str × PayloadValue) → Option PayloadValue
  | [] => none
  | e :: rest => if e.1 = key then some e.2 else payloadLookup key rest

/-! ## Conversation service (`rag_agent/services/conversation.py`) -/

/-- One conversation turn: the dict
`(question, response, timestamp)` appended by `add_conversation_turn`. -/
structure Turn where
  question : Str
  response : Str
  timestamp : Str
deriving DecidableEq

/-- History update of `ConversationService.add_conversation_turn`:
append, then trim to the last 50 entries when the length exceeds 50. -/
def addConversationTurn (history : List Turn) (turn : Turn) : List Turn :=
  let history' := history ++ [turn]
  if 50 < history'.length then pySliceLast 50 history' else history'

/-- `ConversationService.get_conversation_context` on a session's
history: the last `max_turns` entries, rebuilt as dicts with the same
three fields. -/
def getConversationContext (maxTurns : ℕ) (history : List Turn) :
    List Turn :=
  (pySliceLast maxTurns history).map
    (fun t => ⟨t.question, t.response, t.timestamp⟩)

/-! ## Response cache (`rag_agent/utils/performance.py`) -/

/-- The cache key quadruple of `generate_cache_key`; the md5-of-json
hashing is modelled by the quadruple itself (an injective stand-in,
hash collisions are not modelled). -/
structure CacheKey where
  question : Str
  sessionId : Str
  detailLevel : Str
  responseFormat : Str
deriving DecidableEq

/-- `generate_cache_key(question, session_id, detail_level,
response_format)` with the `session_id or ""` defaulting. -/
def generateCacheKey (question : Str) (sessionId : Option Str)
    (detailLevel responseFormat : Str) : CacheKey :=
  ⟨question, sessionId.getD [], detailLevel, responseFormat⟩

/-- The `LRUCache` of `performance.py`: an ordered map, last entry most
recently used.  Note the class stores no timestamps. -/
structure LRUCache (α : Type) where
  maxsize : ℕ
  entries : List (CacheKey × α)
deriving DecidableEq

/-- Ordered-dict key lookup. -/
def assocGet (key : CacheKey) : List (CacheKey × α) → Option α
  | [] => none
  | e :: rest => if e.1 = key then some e.2 else assocGet key rest

/-- Remove the entry of a key (keys are unique in an ordered dict). -/
def eraseKey (key : CacheKey) (l : List (CacheKey × α)) :
    List (CacheKey × α) :=
  l.filter (fun e => ¬(e.1 = key))

/-- `LRUCache.get`: on a hit, move the entry to the most-recent end and
return the stored value; a miss returns nothing and leaves the cache
unchanged. -/
def lruGet (c : LRUCache α) (key : CacheKey) : Option α × LRUCache α :=
  match assocGet key c.entries with
  | some v =>
    (some v, { c with entries := eraseKey key c.entries ++ [(key, v)] })
  | none => (none, c)

/-- `LRUCache.put`: refresh an existing key at the most-recent end;
otherwise evict the least recently used entry when full, then insert. -/
def lruPut (c : LRUCache α) (key : CacheKey) (value : α) : LRUCache α :=
  if (assocGet key c.entries).isSome then
    { c with entries := eraseKey key c.entries ++ [(key, value)] }
  else if c.maxsize ≤ c.entries.length then
    { c with entries := c.entries.drop 1 ++ [(key, value)] }
  else
    { c with entries := c.entries ++ [(key, value)] }

/-- One call through the `cached_agent_response(ttl)` wrapper of
`performance.py`: look the key up, return the cached result on a hit,
otherwise run the wrapped function (`fresh`) and store its result.
`ttl` is the decorator argument and `now` the wall-clock seconds at
call time; the wrapper body consults neither (the source stores no
timestamp and performs no expiry check), which the theorems below make
explicit. -/
def cachedAgentResponse (ttl : ℕ) (now : ℕ) (cache : LRUCache α)
    (key : CacheKey) (fresh : α) : α × LRUCache α :=
  match lruGet cache key with
  | (some cachedResult, cache') => (cachedResult, cache')
  | (none, cache') => (fresh, lruPut cache' key fresh)

/-- The dedup key a returned context was accepted under (its content is
stored unchanged, so the key is recoverable from the context). -/
def ctxContentKey (c : RetrievedContext) : Str := contentKey c.content

/-- The url the dedup step read for a returned context
(`payload.get("url", "")` on the stored metadata). -/
def ctxUrlKey (c : RetrievedContext) : Str := dedupUrl c.metadata

/-! ## Helper lemmas -/

theorem splitDotSpaceGo_ne_nil : ∀ (acc s : Str),
    splitDotSpaceGo acc s ≠ [] := by
  intro acc s
  induction acc, s using splitDotSpaceGo.induct with
  | case1 acc => simp [splitDotSpaceGo]
  | case2 acc rest ih => simp [splitDotSpaceGo]
  | case3 acc c rest h ih => simp_all [splitDotSpaceGo]

theorem splitDotSpace_length_pos (s : Str) :
    0 < (splitDotSpace s).length := by
  have h := splitDotSpaceGo_ne_nil [] s
  unfold splitDotSpace
  exact List.length_pos.mpr h

theorem citationExcerpt_length_le (content : Str) :
    (citationExcerpt content).length ≤ 203 := by
  unfold citationExcerpt
  split_ifs with h
  · simp only [List.length_append, List.length_take, str]
    simp
  · simp only [not_lt] at h
    omega

theorem calculateQualityScore_unit (content : Str) (base : ℚ) :
    0 ≤ calculateQualityScore content base ∧
      calculateQualityScore content base ≤ 1 := by
  unfold calculateQualityScore
  refine ⟨le_max_left _ _, max_le (by norm_num) (min_le_left _ _)⟩

theorem foldl_addConversationTurn (ts : List Turn) :
    List.foldl addConversationTurn [] ts = ts.drop (ts.length - 50) := by
  induction ts using List.reverseRecOn with
  | nil => rfl
  | append_singleton ts t ih =>
    rw [List.foldl_append, List.foldl_cons, List.foldl_nil, ih]
    unfold addConversationTurn pySliceLast
    have hlen : (ts.drop (ts.length - 50)).length =
        ts.length - (ts.length - 50) := List.length_drop _ _
    by_cases hle : ts.length ≤ 49
    · have h0 : ts.length - 50 = 0 := by omega
      have h1 : (ts ++ [t]).length - 50 = 0 := by
        simp only [List.length_append, List.length_singleton]; omega
      rw [h0, h1, List.drop_zero, List.drop_zero]
      rw [if_neg]
      simp only [List.length_append, List.length_singleton, List.drop_zero]
      omega
    · have h50 : 50 ≤ ts.length := by omega
      have hlenfull : (ts.drop (ts.length - 50) ++ [t]).length = 51 := by
        simp only [List.length_append, List.length_singleton, hlen]; omega
      rw [if_pos (by omega : 50 < (ts.drop (ts.length - 50) ++ [t]).length)]
      rw [if_neg (by omega : ¬(50 = 0))]
      rw [hlenfull]
      have hdropapp :
          (ts.drop (ts.length - 50) ++ [t]).drop (51 - 50) =
            (ts.drop (ts.length - 50)).drop 1 ++ [t] := by
        exact List.drop_append_of_le_length (by omega)
      rw [hdropapp, List.drop_drop]
      have harr : (ts ++ [t]).length - 50 = ts.length - 50 + 1 := by
        simp only [List.length_append, List.length_singleton]; omega
      rw [harr]
      rw [List.drop_append_of_le_length (by omega)]

theorem mkContext_ok {p : Point} {ctx : RetrievedContext}
    (h : mkContext p = .ok ctx) :
    ctx.content = p.payload.content ∧ ctx.metadata = p.payload ∧
      ctx.similarityScore = calculateQualityScore p.payload.content
        p.score := by
  unfold mkContext at h
  dsimp only [] at h
  split at h
  · exact Except.noConfusion h
  split at h
  · exact Except.noConfusion h
  split at h
  · exact Except.noConfusion h
  split at h
  · exact Except.noConfusion h
  split at h
  · exact Except.noConfusion h
  injection h with h'
  subst h'
  exact ⟨rfl, rfl, rfl⟩

theorem dedupLoop_length (topK : ℕ) : ∀ (pts : List Point)
    (seenContent seenUrls : List Str) (acc : List RetrievedContext),
    acc.length < topK →
    (dedupLoop topK pts seenContent seenUrls acc).length ≤ topK := by
  intro pts
  induction pts with
  | nil => intro _ _ acc h; exact h.le
  | cons p rest ih =>
    intro seenContent seenUrls acc hacc
    simp only [dedupLoop]
    by_cases h1 : stripCh p.payload.content = []
    · rw [if_pos h1]; exact ih _ _ _ hacc
    rw [if_neg h1]
    by_cases h2 : contentKey p.payload.content ∈ seenContent ∨
        dedupUrl p.payload ∈ seenUrls
    · rw [if_pos h2]; exact ih _ _ _ hacc
    rw [if_neg h2]
    cases hmk : mkContext p with
    | error e => simp only [hmk]; exact ih _ _ _ hacc
    | ok ctx =>
      simp only [hmk]
      by_cases h3 : topK ≤ (acc ++ [ctx]).length
      · rw [if_pos h3]; simpa using hacc
      rw [if_neg h3]
      refine ih _ _ _ ?_
      simp only [List.length_append, List.length_singleton] at h3 ⊢
      omega

theorem dedupLoop_invariants (topK : ℕ) : ∀ (pts : List Point)
    (seenContent seenUrls : List Str) (acc : List RetrievedContext),
    (∀ c ∈ acc, ctxContentKey c ∈ seenContent) →
    (∀ c ∈ acc, ctxUrlKey c ≠ [] → ctxUrlKey c ∈ seenUrls) →
    acc.Pairwise (fun x y => ctxContentKey x ≠ ctxContentKey y) →
    acc.Pairwise (fun x y => ctxUrlKey x = ctxUrlKey y → ctxUrlKey x = []) →
    (∀ c ∈ acc, 0 ≤ c.similarityScore ∧ c.similarityScore ≤ 1) →
    ((dedupLoop topK pts seenContent seenUrls acc).Pairwise
        (fun x y => ctxContentKey x ≠ ctxContentKey y) ∧
      (dedupLoop topK pts seenContent seenUrls acc).Pairwise
        (fun x y => ctxUrlKey x = ctxUrlKey y → ctxUrlKey x = []) ∧
      ∀ c ∈ dedupLoop topK pts seenContent seenUrls acc,
        0 ≤ c.similarityScore ∧ c.similarityScore ≤ 1) := by
  intro pts
  induction pts with
  | nil => intro _ _ acc _ _ hpc hpu hs; exact ⟨hpc, hpu, hs⟩
  | cons p rest ih =>
    intro seenContent seenUrls acc hsub husub hpc hpu hs
    simp only [dedupLoop]
    by_cases h1 : stripCh p.payload.content = []
    · rw [if_pos h1]; exact ih _ _ _ hsub husub hpc hpu hs
    rw [if_neg h1]
    by_cases h2 : contentKey p.payload.content ∈ seenContent ∨
        dedupUrl p.payload ∈ seenUrls
    · rw [if_pos h2]; exact ih _ _ _ hsub husub hpc hpu hs
    rw [if_neg h2]
    push_neg at h2
    cases hmk : mkContext p with
    | error e =>
      simp only [hmk]
      refine ih _ _ _ ?_ ?_ hpc hpu hs
      · intro c hc
        exact List.mem_cons_of_mem _ (hsub c hc)
      · intro c hc hne
        have hmem := husub c hc hne
        split_ifs
        · exact List.mem_cons_of_mem _ hmem
        · exact hmem
    | ok ctx =>
      simp only [hmk]
      obtain ⟨hcc, hcm, hcs⟩ := mkContext_ok hmk
      have hkey : ctxContentKey ctx = contentKey p.payload.content := by
        unfold ctxContentKey
        rw [hcc]
      have hurl : ctxUrlKey ctx = dedupUrl p.payload := by
        unfold ctxUrlKey
        rw [hcm]
      have hpc' : (acc ++ [ctx]).Pairwise
          (fun x y => ctxContentKey x ≠ ctxContentKey y) := by
        refine List.pairwise_append.mpr
          ⟨hpc, List.pairwise_singleton _ _, ?_⟩
        intro x hx y hy
        rw [List.mem_singleton] at hy
        subst hy
        intro heq
        rw [hkey] at heq
        apply h2.1
        have hx' := hsub x hx
        rwa [heq] at hx'
      have hpu' : (acc ++ [ctx]).Pairwise
          (fun x y => ctxUrlKey x = ctxUrlKey y → ctxUrlKey x = []) := by
        refine List.pairwise_append.mpr
          ⟨hpu, List.pairwise_singleton _ _, ?_⟩
        intro x hx y hy
        rw [List.mem_singleton] at hy
        subst hy
        intro heq
        by_contra hne
        rw [hurl] at heq
        apply h2.2
        have hx' := husub x hx hne
        rwa [heq] at hx'
      have hs' : ∀ c ∈ acc ++ [ctx],
          0 ≤ c.similarityScore ∧ c.similarityScore ≤ 1 := by
        intro c hc
        rcases List.mem_append.mp hc with hc | hc
        · exact hs c hc
        · rw [List.mem_singleton] at hc
          subst hc
          rw [hcs]
          exact calculateQualityScore_unit _ _
      by_cases h3 : topK ≤ (acc ++ [ctx]).length
      · rw [if_pos h3]
        exact ⟨hpc', hpu', hs'⟩
      rw [if_neg h3]
      refine ih _ _ _ ?_ ?_ hpc' hpu' hs'
      · intro c hc
        rcases List.mem_append.mp hc with hc | hc
        · exact List.mem_cons_of_mem _ (hsub c hc)
        · rw [List.mem_singleton] at hc
          subst hc
          rw [hkey]
          exact List.mem_cons_self _ _
      · intro c hc
        rcases List.mem_append.mp hc with hc | hc
        · intro hne
          have hmem := husub c hc hne
          split_ifs
          · exact List.mem_cons_of_mem _ hmem
          · exact hmem
        · rw [List.mem_singleton] at hc
          subst hc
          intro hne
          rw [hurl] at hne ⊢
          rw [if_pos hne]
          exact List.mem_cons_self _ _

theorem processResults_invariants (points : List Point) (topK : ℕ)
    (hlen : points.length ≤ 3 * topK) :
    (processResults points topK).length ≤ topK ∧
    (processResults points topK).Pairwise
      (fun x y => ctxContentKey x ≠ ctxContentKey y) ∧
    (processResults points topK).Pairwise
      (fun x y => ctxUrlKey x = ctxUrlKey y → ctxUrlKey x = []) ∧
    ∀ c ∈ processResults points topK,
      0 ≤ c.similarityScore ∧ c.similarityScore ≤ 1 := by
  have hperm : List.Perm (processResults points topK)
      (dedupLoop topK points [] [] []) :=
    List.perm_insertionSort _ _
  have hinv := dedupLoop_invariants topK points [] [] []
    (by intro c hc; cases hc) (by intro c hc; cases hc)
    List.Pairwise.nil List.Pairwise.nil (by intro c hc; cases hc)
  refine ⟨?_, ?_, ?_, ?_⟩
  · rw [List.Perm.length_eq hperm]
    cases topK with
    | zero =>
      have hnil : points = [] := by
        rw [← List.length_eq_zero]
        omega
      subst hnil
      simp [dedupLoop]
    | succ n =>
      exact dedupLoop_length _ _ _ _ _ (by simp)
  · exact (List.Perm.pairwise_iff (fun h heq => h heq.symm) hperm).mpr
      hinv.1
  · exact (List.Perm.pairwise_iff
      (fun h heq => heq.trans (h heq.symm)) hperm).mpr hinv.2.1
  · intro c hc
    exact hinv.2.2 c ((List.Perm.mem_iff hperm).mp hc)

theorem min_one_idem (x : ℚ) : min 1 (min 1 x) = min 1 x := by
  rw [← min_assoc, min_self]

theorem min_one_mul_right (x b : ℚ) (hb : 1 ≤ b) :
    min 1 (min 1 x * b) = min 1 (x * b) := by
  rcases le_total x 1 with h | h
  · rw [min_eq_right h]
  · rw [min_eq_left h, one_mul, min_eq_left hb,
      min_eq_left (by nlinarith : (1 : ℚ) ≤ x * b)]

theorem quality_algebra (s a b : ℚ) (k t : ℕ) (ha : 1 ≤ a) (hb : 1 ≤ b)
    (ha1 : k = 0 → a = 1) (hb1 : t = 0 → b = 1) :
    max 0 (min 1 (
      if 0 < k ∧ (if 0 < t then
          min 1 ((if 0 < k then min 1 (s * a) else s) * b)
        else (if 0 < k then min 1 (s * a) else s)) < 3 / 10
      then max (if 0 < t then
          min 1 ((if 0 < k then min 1 (s * a) else s) * b)
        else (if 0 < k then min 1 (s * a) else s)) (3 / 10)
      else (if 0 < t then
          min 1 ((if 0 < k then min 1 (s * a) else s) * b)
        else (if 0 < k then min 1 (s * a) else s)))) =
    max 0 (if 0 < k ∧ min 1 (s * a * b) < 3 / 10 then (3 : ℚ) / 10
      else min 1 (s * a * b)) := by
  by_cases hk : 0 < k <;> by_cases ht : 0 < t
  · rw [if_pos hk, if_pos ht, min_one_mul_right (s * a) b hb]
    by_cases hfl : min 1 (s * a * b) < 3 / 10
    · rw [if_pos ⟨hk, hfl⟩, if_pos ⟨hk, hfl⟩, max_eq_right hfl.le,
        min_eq_right (by norm_num : (3 : ℚ) / 10 ≤ 1)]
    · rw [if_neg (fun h => hfl h.2), if_neg (fun h => hfl h.2),
        min_one_idem]
  · have hb' : b = 1 := hb1 (by omega)
    rw [if_pos hk, if_neg ht, hb', mul_one]
    by_cases hfl : min 1 (s * a) < 3 / 10
    · rw [if_pos ⟨hk, hfl⟩, if_pos ⟨hk, hfl⟩, max_eq_right hfl.le,
        min_eq_right (by norm_num : (3 : ℚ) / 10 ≤ 1)]
    · rw [if_neg (fun h => hfl h.2), if_neg (fun h => hfl h.2),
        min_one_idem]
  · have ha' : a = 1 := ha1 (by omega)
    rw [if_neg hk, if_pos ht, ha', mul_one]
    rw [if_neg (fun h => hk h.1), if_neg (fun h => hk h.1), min_one_idem]
  · have ha' : a = 1 := ha1 (by omega)
    have hb' : b = 1 := hb1 (by omega)
    rw [if_neg hk, if_neg ht, ha', hb', mul_one, mul_one]
    rw [if_neg (fun h => hk h.1), if_neg (fun h => hk h.1)]

theorem dedupLoopExpansion_eq (topK : ℕ) : ∀ (pts : List Point)
    (seenContent seenUrls : List Str) (acc : List RetrievedContext),
    dedupLoopExpansion topK pts seenContent seenUrls acc =
      dedupLoop topK pts seenContent seenUrls acc := by
  intro pts
  induction pts with
  | nil => intro _ _ _; rfl
  | cons p rest ih =>
    intro seenContent seenUrls acc
    simp only [dedupLoopExpansion, dedupLoop]
    by_cases h1 : stripCh p.payload.content = []
    · simp only [if_pos h1]; apply ih
    simp only [if_neg h1]
    by_cases h2 : contentKey p.payload.content ∈ seenContent ∨
        dedupUrl p.payload ∈ seenUrls
    · simp only [if_pos h2]; apply ih
    simp only [if_neg h2]
    cases hmk : mkContext p with
    | error e => simp only [hmk]; apply ih
    | ok ctx =>
      simp only [hmk]
      by_cases h3 : topK ≤ (acc ++ [ctx]).length
      · simp only [if_pos h3]
      · simp only [if_neg h3]; apply ih

theorem dedupLoopFallback_eq (topK : ℕ) : ∀ (pts : List Point)
    (seenContent seenUrls : List Str) (acc : List RetrievedContext),
    dedupLoopFallback topK pts seenContent seenUrls acc =
      dedupLoop topK pts seenContent seenUrls acc := by
  intro pts
  induction pts with
  | nil => intro _ _ _; rfl
  | cons p rest ih =>
    intro seenContent seenUrls acc
    simp only [dedupLoopFallback, dedupLoop]
    by_cases h1 : stripCh p.payload.content = []
    · simp only [if_pos h1]; apply ih
    simp only [if_neg h1]
    by_cases h2 : contentKey p.payload.content ∈ seenContent ∨
        dedupUrl p.payload ∈ seenUrls
    · simp only [if_pos h2]; apply ih
    simp only [if_neg h2]
    cases hmk : mkContext p with
    | error e => simp only [hmk]; apply ih
    | ok ctx =>
      simp only [hmk]
      by_cases h3 : topK ≤ (acc ++ [ctx]).length
      · simp only [if_pos h3]
      · simp only [if_neg h3]; apply ih

/-! ## Claim theorems -/

/-- C1 (the decorator drops its TTL): the `cached_agent_response(ttl=300)`
wrapper stores no timestamp and checks no clock, so a cache read
performed 301 seconds after the entry was stored — past the claimed
5-minute TTL — still returns the stored response instead of recomputing
(the read at 299 seconds, within the TTL, behaves the same way). -/
theorem c1_cache_read_after_ttl_returns_stored :
    (cachedAgentResponse 300 299
        (cachedAgentResponse 300 0 ⟨512, []⟩
          (generateCacheKey (str "q") none (str "intermediate")
            (str "detailed"))
          (str "first answer")).2
        (generateCacheKey (str "q") none (str "intermediate")
          (str "detailed"))
        (str "second answer")).1 = str "first answer" ∧
    (cachedAgentResponse 300 301
        (cachedAgentResponse 300 0 ⟨512, []⟩
          (generateCacheKey (str "q") none (str "intermediate")
            (str "detailed"))
          (str "first answer")).2
        (generateCacheKey (str "q") none (str "intermediate")
          (str "detailed"))
        (str "third answer")).1 = str "first answer" ∧
    str "first answer" ≠ str "third answer" := by
  refine ⟨rfl, rfl, by decide⟩

/-- C4: a raising embedding call (outer `try/except`) and a raising
similarity-search call (caught inside `_search_qdrant`) both make
`retrieve_context` return the empty list instead of propagating. -/
theorem c4_retrieval_failure_yields_empty_list :
    (∀ (rawSearch : List ℚ → Except Unit (List Point)) (topK : ℕ),
      retrieveContext (.error ()) rawSearch topK = []) ∧
    (∀ (emb : List ℚ) (topK : ℕ),
      retrieveContext (.ok emb) (fun _ => .error ()) topK = []) :=
  ⟨fun _ _ => rfl, fun _ _ => rfl⟩

/-- C7 counterexample: a context whose content repeats a boilerplate
phrase does not survive `_filter_repetitive_contexts` (so it is not
used in the answer prompt), yet `_extract_citations` — which is applied
to the unfiltered retrieved list — still produces a citation for it, so
citations are not one-to-one with surviving contexts. -/
theorem c7_counterexample :
    filterRepetitiveContexts
      [⟨str "i", str "Complete Learning Path twice Complete Learning Path",
        str "https://example.com/a", str "c", str "s",
        [str "h1", str "h2"], 1/2, ⟨str "x", none, none, none, none⟩⟩] =
      [] ∧
    (extractCitations
      [⟨str "i", str "Complete Learning Path twice Complete Learning Path",
        str "https://example.com/a", str "c", str "s",
        [str "h1", str "h2"], 1/2, ⟨str "x", none, none, none, none⟩⟩]).length
      = 1 := by
  exact ⟨by decide, by decide⟩

/-- C7 amended: `_extract_citations` produces exactly one citation per
context of the retrieved list it is given (the repetitive-context
filter restricts only the prompt, not the citations), carrying the
context's url, chapter, section, last heading-hierarchy element (or
none), its quality-adjusted score as both similarity and confidence,
and an excerpt of at most 200 characters plus an ellipsis marker when
truncated. -/
theorem c7_one_citation_per_retrieved_context
    (ctxs : List RetrievedContext) :
    extractCitations ctxs =
      ctxs.map (fun ctx =>
        { sourceUrl := ctx.url
          chapter := ctx.chapter
          sectionName := ctx.sectionName
          heading := ctx.headingHierarchy.getLast?
          pageReference := none
          similarityScore := ctx.similarityScore
          textExcerpt := citationExcerpt ctx.content
          sourceType := str "textbook"
          confidenceScore := ctx.similarityScore }) ∧
    ∀ cit ∈ extractCitations ctxs, cit.textExcerpt.length ≤ 203 := by
  have hmap : ∀ l : List RetrievedContext, extractCitations l =
      l.map (fun ctx =>
        { sourceUrl := ctx.url
          chapter := ctx.chapter
          sectionName := ctx.sectionName
          heading := ctx.headingHierarchy.getLast?
          pageReference := none
          similarityScore := ctx.similarityScore
          textExcerpt := citationExcerpt ctx.content
          sourceType := str "textbook"
          confidenceScore := ctx.similarityScore }) := by
    intro l
    induction l with
    | nil => rfl
    | cons ctx rest ih => simp [extractCitations, ih]
  refine ⟨hmap ctxs, ?_⟩
  intro cit hc
  rw [hmap ctxs] at hc
  rcases List.mem_map.mp hc with ⟨ctx, _, rfl⟩
  exact citationExcerpt_length_le ctx.content

/-- C7 amended witness: a single short context with one heading yields
exactly its citation, whose excerpt is within the bound. -/
theorem c7_one_citation_per_retrieved_context_witness :
    extractCitations
      [⟨str "i", str "short text", str "u", str "c", str "s",
        [str "h"], 1/2, ⟨str "short text", none, none, none, none⟩⟩] =
      ([⟨str "i", str "short text", str "u", str "c", str "s",
        [str "h"], 1/2,
        ⟨str "short text", none, none, none,
          none⟩⟩] : List RetrievedContext).map (fun ctx =>
        { sourceUrl := ctx.url
          chapter := ctx.chapter
          sectionName := ctx.sectionName
          heading := ctx.headingHierarchy.getLast?
          pageReference := none
          similarityScore := ctx.similarityScore
          textExcerpt := citationExcerpt ctx.content
          sourceType := str "textbook"
          confidenceScore := ctx.similarityScore }) ∧
    ({ sourceUrl := str "u"
       chapter := str "c"
       sectionName := str "s"
       heading := some (str "h")
       pageReference := none
       similarityScore := 1/2
       textExcerpt := str "short text"
       sourceType := str "textbook"
       confidenceScore := 1/2 } : Citation).textExcerpt.length ≤ 203 :=
  ⟨(c7_one_citation_per_retrieved_context
      [⟨str "i", str "short text", str "u", str "c", str "s",
        [str "h"], 1/2, ⟨str "short text", none, none, none, none⟩⟩]).1,
    (c7_one_citation_per_retrieved_context
      [⟨str "i", str "short text", str "u", str "c", str "s",
        [str "h"], 1/2, ⟨str "short text", none, none, none, none⟩⟩]).2
      _ (by decide)⟩

/-- C8 counterexample: chunking a concrete text gives a chunk whose
ingestion payload has no quality-score entry at all — the chunker and
`save_chunk_to_qdrant` never invoke the content-quality heuristic. -/
theorem c8_counterexample :
    chunkText (str "hello world") [] =
      [⟨str "hello world", ⟨[], [], [], []⟩⟩] ∧
    payloadLookup (str "quality_score")
      (saveChunkPayload (str "hello world") ⟨[], [], [], []⟩ (str "rid")) =
      none := by
  exact ⟨by decide, by decide⟩

/-- C8 amended: the payload upserted at ingestion for any chunk carries
exactly content, url, chapter, section, heading hierarchy and chunk id
— no quality score is computed or stored at ingestion time (the shared
content-quality heuristic runs only at retrieval time, inside
`_calculate_quality_score`). -/
theorem c8_ingestion_payload_has_no_quality_score
    (content : Str) (meta : ChunkMeta) (recordId : Str) :
    (saveChunkPayload content meta recordId).map Prod.fst =
      [str "content", str "url", str "chapter", str "section",
       str "heading_hierarchy", str "text_chunk_id"] ∧
    payloadLookup (str "quality_score")
      (saveChunkPayload content meta recordId) = none := by
  exact ⟨rfl, rfl⟩

/-- C9: after adding 51 turns to a fresh session, the history holds
exactly the 50 most recent turns in order (the first turn is evicted),
and `get_conversation_context` with `max_turns = 50` returns those same
50 turns. -/
theorem c9_history_after_51_turns (ts : List Turn) (h : ts.length = 51) :
    List.foldl addConversationTurn [] ts = ts.drop 1 ∧
    getConversationContext 50 (List.foldl addConversationTurn [] ts) =
      ts.drop 1 := by
  have hfold : List.foldl addConversationTurn [] ts = ts.drop 1 := by
    rw [foldl_addConversationTurn, h]
  refine ⟨hfold, ?_⟩
  rw [hfold]
  unfold getConversationContext pySliceLast
  rw [if_neg (by omega : ¬(50 = 0))]
  have hlen : (ts.drop 1).length = 50 := by
    rw [List.length_drop]; omega
  rw [hlen]
  simp only [Nat.sub_self, List.drop_zero]
  have heta : (fun t : Turn =>
      (⟨t.question, t.response, t.timestamp⟩ : Turn)) = id := rfl
  rw [heta, List.map_id]

/-- C2 counterexample: two search hits with distinct contents and no
url key in the payload both survive the dedup pass — the dedup step
reads the empty default, which is never added to the seen-url set —
and both constructed contexts then receive the second read's default
url, which passes the pydantic URL validation, so `retrieve_context`
returns two entries with the same source URL. -/
theorem c2_counterexample :
    (retrieveContext (.ok [])
      (fun _ => .ok
        [⟨str "id1", 1/2,
          ⟨str "alpha content blah", none, none, none, none⟩⟩,
         ⟨str "id2", 1/2,
          ⟨str "beta thing words", none, none, none, none⟩⟩]) 5).map
      (fun c => c.url) =
      [str "https://example.com", str "https://example.com"] := by
  decide

/-- C2 amended: the list returned by `retrieve_context` has no two
entries with the same normalized (stripped, lowered, 100-character)
content prefix, no two entries whose dedup-time payload url is the same
NON-EMPTY string (entries whose payload url is empty or missing are not
URL-deduplicated), length at most `top_k` (given the search-service
contract that at most `3 * top_k` raw candidates are returned), and
every similarity score in the unit interval. -/
theorem c2_retrieve_invariants (emb : List ℚ)
    (rawSearch : List ℚ → Except Unit (List Point)) (topK : ℕ)
    (hlimit : (searchQdrant (rawSearch emb)).length ≤ 3 * topK) :
    (retrieveContext (.ok emb) rawSearch topK).length ≤ topK ∧
    (retrieveContext (.ok emb) rawSearch topK).Pairwise
      (fun x y => ctxContentKey x ≠ ctxContentKey y) ∧
    (retrieveContext (.ok emb) rawSearch topK).Pairwise
      (fun x y => ctxUrlKey x = ctxUrlKey y → ctxUrlKey x = []) ∧
    ∀ c ∈ retrieveContext (.ok emb) rawSearch topK,
      0 ≤ c.similarityScore ∧ c.similarityScore ≤ 1 :=
  processResults_invariants _ _ hlimit

/-- C2 amended witness: one valid candidate under a `top_k` of 5. -/
theorem c2_retrieve_invariants_witness :
    (searchQdrant ((fun _ : List ℚ => Except.ok
      [⟨str "id1", 1/2,
        ⟨str "alpha content blah", some (str "https://example.com/a"), none,
          none, none⟩⟩]) [])).length ≤ 3 * 5 ∧
    (retrieveContext (.ok [])
      (fun _ => .ok
        [⟨str "id1", 1/2,
          ⟨str "alpha content blah", some (str "https://example.com/a"), none,
            none, none⟩⟩]) 5).length ≤ 5 ∧
    (retrieveContext (.ok [])
      (fun _ => .ok
        [⟨str "id1", 1/2,
          ⟨str "alpha content blah", some (str "https://example.com/a"), none,
            none, none⟩⟩]) 5).Pairwise
      (fun x y => ctxContentKey x ≠ ctxContentKey y) :=
  ⟨by decide,
    (c2_retrieve_invariants []
      (fun _ => .ok
        [⟨str "id1", 1/2,
          ⟨str "alpha content blah", some (str "https://example.com/a"), none,
            none, none⟩⟩]) 5 (by decide)).1,
    (c2_retrieve_invariants []
      (fun _ => .ok
        [⟨str "id1", 1/2,
          ⟨str "alpha content blah", some (str "https://example.com/a"), none,
            none, none⟩⟩]) 5 (by decide)).2.1⟩

/-- C3 counterexample: for the two-character content and raw similarity
-1 the code clamps the final score to 0, while the formula exactly as
the claim words it (no final clamp to at least 0) gives -0.7, so the
claimed formula disagrees with the code. -/
theorem c3_counterexample :
    calculateQualityScore (str "xy") (-1) = 0 ∧
    specQualityScore (str "xy") (-1) = -(7 / 10) ∧
    calculateQualityScore (str "xy") (-1) ≠
      specQualityScore (str "xy") (-1) :=
  ⟨by decide, by decide, by decide⟩

/-- C3 amended: the quality-adjusted score equals the claim's formula
(short-content factor 0.7, boilerplate factor 0.5, keyword and
technical-term boosts multiplicatively combined then clamped to at most
1.0, floor 0.3 for keyword content below it) clamped, in addition, to
at least 0.0 at the end. -/
theorem c3_quality_score_formula (content : Str) (base : ℚ) :
    calculateQualityScore content base =
      max 0 (specQualityScore content base) := by
  simp only [calculateQualityScore, specQualityScore]
  have hq2 : (if (repetitivePatterns.any fun p =>
        1 < countOccur (lowerStr p) (lowerStr content)) = true then
      (if (stripCh content).length < 50 then base * (7 / 10) else base) *
        (1 / 2)
    else
      (if (stripCh content).length < 50 then base * (7 / 10) else base)) =
      base * (if (stripCh content).length < 50 then (7 : ℚ) / 10 else 1) *
        (if (repetitivePatterns.any fun p =>
          1 < countOccur (lowerStr p) (lowerStr content)) = true then
            (1 : ℚ) / 2 else 1) := by
    split_ifs <;> ring
  rw [hq2]
  exact quality_algebra _ _ _ (keywordMatches (lowerStr content))
    (termMatches (lowerStr content))
    (le_add_of_nonneg_right (by positivity))
    (le_add_of_nonneg_right (by positivity))
    (fun h => by rw [h]; norm_num)
    (fun h => by rw [h]; norm_num)

/-- C5: `retrieve_context_with_expansion` consults the expanded-query
search exactly when the mean raw similarity of the original candidate
pool is below 0.5 or the query contains a fixed trigger substring; when
expansion runs and succeeds, the result is the same
dedup-rescore-top-k selection applied to the original candidates
followed by the expanded ones (so original candidates win dedup ties);
when the expansion attempt raises, and likewise when expansion is not
triggered, the result is that selection applied to the original
candidates alone. -/
theorem c5_expansion_policy (query : Str) (topK : ℕ) (emb : List ℚ)
    (origRawSearch : List ℚ → Except Unit (List Point))
    (expandCall : Str → Except Unit (List Point)) :
    ((avgSimilarity (searchQdrant (origRawSearch emb)) < 1 / 2 ∨
        hasTechnicalTerms query = true) →
      (∀ expandedResults,
        expandCall (expandQuery query) = .ok expandedResults →
        retrieveContextWithExpansion query topK (.ok emb) origRawSearch
          expandCall =
          processResults
            (searchQdrant (origRawSearch emb) ++ expandedResults) topK) ∧
      (expandCall (expandQuery query) = .error () →
        retrieveContextWithExpansion query topK (.ok emb) origRawSearch
          expandCall =
          processResults (searchQdrant (origRawSearch emb)) topK)) ∧
    (¬(avgSimilarity (searchQdrant (origRawSearch emb)) < 1 / 2 ∨
        hasTechnicalTerms query = true) →
      retrieveContextWithExpansion query topK (.ok emb) origRawSearch
        expandCall =
        processResults (searchQdrant (origRawSearch emb)) topK) := by
  constructor
  · intro htrig
    constructor
    · intro expandedResults hexp
      simp only [retrieveContextWithExpansion]
      rw [if_pos htrig, hexp]
      simp only [processResults, dedupLoopExpansion_eq]
    · intro herr
      simp only [retrieveContextWithExpansion]
      rw [if_pos htrig, herr]
      simp only [processResults, dedupLoopFallback_eq]
  · intro htrig
    simp only [retrieveContextWithExpansion]
    rw [if_neg htrig]
    simp only [processResults, dedupLoopFallback_eq]

/-- C5 witness: a query containing the trigger substring robotics, an
empty original pool and one expanded candidate. -/
theorem c5_expansion_policy_witness :
    ((avgSimilarity (searchQdrant
        ((fun _ : List ℚ => Except.ok ([] : List Point)) [])) < 1 / 2 ∨
      hasTechnicalTerms (str "what is robotics") = true) ∧
    retrieveContextWithExpansion (str "what is robotics") 5 (.ok [])
      (fun _ => .ok [])
      (fun _ => .ok [⟨str "p", 1/2,
        ⟨str "gamma words", some (str "https://x.y/a"), none, none,
          none⟩⟩]) =
      processResults
        (searchQdrant ((fun _ : List ℚ => Except.ok ([] : List Point)) [])
          ++ [⟨str "p", 1/2,
            ⟨str "gamma words", some (str "https://x.y/a"), none, none,
              none⟩⟩]) 5) :=
  ⟨Or.inr (by decide),
    ((c5_expansion_policy (str "what is robotics") 5 []
      (fun _ => .ok [])
      (fun _ => .ok [⟨str "p", 1/2,
        ⟨str "gamma words", some (str "https://x.y/a"), none, none,
          none⟩⟩])).1
      (Or.inr (by decide))).1 _ rfl⟩

/-- C10 counterexample: an answer none of whose own dot-space spans is
longer than 10 characters once stripped, yet for which
`validate_answer_grounding` returns `true`: the line-deduplication step
removes the duplicated line and thereby merges short spans into one
14-character span, so the checked-span count is 1 rather than 0, no
`ZeroDivisionError` occurs, and the single span is supported by the
context. -/
theorem c10_counterexample :
    (str "a. b\npqrst\na. b\nuvwxyz" ≠ []) ∧
    (splitDotSpace (str "a. b\npqrst\na. b\nuvwxyz")).all
      (fun s => (stripCh s).length ≤ 10) = true ∧
    validateAnswerGrounding (str "a. b\npqrst\na. b\nuvwxyz")
      [⟨str "i", str "b", str "u", str "c", str "s", [], 1/2,
        ⟨str "b", none, none, none, none⟩⟩] = true := by
  exact ⟨by decide, by decide, by decide⟩

/-- C10 amended: for every non-empty answer whose LINE-DEDUPLICATED form
has no dot-space span with stripped length over 10 characters, the
checked-span count is zero, the grounding-ratio division raises
`ZeroDivisionError`, and the `handle_exceptions` decorator
(`fallback_return=False`, `reraise=False`) absorbs it, so the public
verdict is the boolean `false`. -/
theorem c10_no_checked_spans_returns_false (answer : Str)
    (ctxs : List RetrievedContext) (hne : answer ≠ [])
    (h : ∀ s ∈ splitDotSpace (removeRepetitiveContent answer),
      (stripCh s).length ≤ 10) :
    validateAnswerGroundingRaw answer ctxs = .error () ∧
    validateAnswerGrounding answer ctxs = false := by
  have hraw : validateAnswerGroundingRaw answer ctxs = .error () := by
    simp only [validateAnswerGroundingRaw]
    rw [if_pos (splitDotSpace_length_pos (removeRepetitiveContent answer))]
    rw [if_pos]
    rw [List.length_eq_zero]
    rw [List.filter_eq_nil_iff]
    intro s hs
    simpa using Nat.not_lt.mpr (h s hs)
  refine ⟨hraw, ?_⟩
  unfold validateAnswerGrounding
  rw [hraw]

/-- C10 amended witness: the short answer with two short spans and no
retrieved context. -/
theorem c10_no_checked_spans_returns_false_witness :
    (str "Hi. Yo" ≠ []) ∧
    validateAnswerGroundingRaw (str "Hi. Yo") [] = .error () ∧
    validateAnswerGrounding (str "Hi. Yo") [] = false :=
  ⟨by decide,
    (c10_no_checked_spans_returns_false (str "Hi. Yo") [] (by decide)
      (by decide)).1,
    (c10_no_checked_spans_returns_false (str "Hi. Yo") [] (by decide)
      (by decide)).2⟩

/-- C6: when at least one span of the line-deduplicated answer passes
the 10-character filter, `validate_answer_grounding` returns exactly
the comparison of the supported-to-checked ratio with 0.6, where a
span is supported when its stripped, lowered form is longer than 10
characters and occurs verbatim in the lowered space-joined context
contents, or one of its first 5 words occurs there. -/
theorem c6_grounding_ratio (answer : Str) (ctxs : List RetrievedContext)
    (hchecked : 0 < ((splitDotSpace (removeRepetitiveContent answer)).filter
      (fun s => 10 < (stripCh s).length)).length) :
    validateAnswerGrounding answer ctxs =
      decide ((3 : ℚ) / 5 ≤
        ((((splitDotSpace (removeRepetitiveContent answer)).filter
            (sentenceSupported (lowerStr (List.intercalate (str " ")
              (ctxs.map (fun c => c.content)))))).length : ℚ) /
          (((splitDotSpace (removeRepetitiveContent answer)).filter
            (fun s => 10 < (stripCh s).length)).length : ℚ))) := by
  unfold validateAnswerGrounding
  simp only [validateAnswerGroundingRaw]
  rw [if_pos (splitDotSpace_length_pos (removeRepetitiveContent answer))]
  rw [if_neg (by omega : ¬(((splitDotSpace
    (removeRepetitiveContent answer)).filter
      (fun s => decide (10 < (stripCh s).length))).length = 0))]

/-- C6 witness: one long supported span gives ratio 1 and verdict
`true`. -/
theorem c6_grounding_ratio_witness :
    (0 < ((splitDotSpace (removeRepetitiveContent
        (str "robotics is fun today. Yes"))).filter
      (fun s => 10 < (stripCh s).length)).length) ∧
    validateAnswerGrounding (str "robotics is fun today. Yes")
      [⟨str "i", str "robotics is fun", str "u", str "c", str "s", [], 1/2,
        ⟨str "robotics is fun", none, none, none, none⟩⟩] =
      decide ((3 : ℚ) / 5 ≤
        ((((splitDotSpace (removeRepetitiveContent
              (str "robotics is fun today. Yes"))).filter
            (sentenceSupported (lowerStr (List.intercalate (str " ")
              ([⟨str "i", str "robotics is fun", str "u", str "c", str "s",
                  [], 1/2,
                  ⟨str "robotics is fun", none, none, none, none⟩⟩].map
                (fun c : RetrievedContext => c.content)))))).length : ℚ) /
          (((splitDotSpace (removeRepetitiveContent
              (str "robotics is fun today. Yes"))).filter
            (fun s => 10 < (stripCh s).length)).length : ℚ))) :=
  ⟨by decide, c6_grounding_ratio (str "robotics is fun today. Yes") _
    (by decide)⟩

/-- C9 witness: a concrete run of 51 distinct turns. -/
theorem c9_history_after_51_turns_witness :
    ((List.range 51).map
      (fun i => (⟨Nat.toDigits 10 i, [], []⟩ : Turn))).length = 51 ∧
    List.foldl addConversationTurn []
      ((List.range 51).map
        (fun i => (⟨Nat.toDigits 10 i, [], []⟩ : Turn))) =
      ((List.range 51).map
        (fun i => (⟨Nat.toDigits 10 i, [], []⟩ : Turn))).drop 1 :=
  ⟨by decide,
    (c9_history_after_51_turns _ (by decide)).1⟩

end RagSpec
